import Mathlib

/-!
Shallow embedding of the crash-report dashboard core
(`modules/cleaning.py`, `modules/data_audit.py`, `modules/insights.py`)
and proofs of the specification's testable properties.

Modelling conventions:
* a pandas `DataFrame` is a `Table`: a header of column names plus a list of
  rows, each row a list of cells; a cell is `Option Value` where `none` is a
  missing value (NaN/NaT/None);
* numbers are exact rationals `ℚ` (the code only forms sums, means, medians
  and percentage comparisons of cell values; no claim depends on binary
  floating-point artefacts, and ties in decimal formatting do not arise in
  any statement below);
* dates are integers in `yyyymmdd` form, so that chronological order is
  integer order and `pd.DateOffset(years := 4)` is subtraction of `40000`;
  "now" (`pd.Timestamp.now()` / `datetime.datetime.now()`) is an explicit
  parameter of the audit;
* a Python `KeyError` (absent column, or `mode()[0]` on an empty mode
  Series) is modelled by returning `none` from the embedded function.
-/

/-- Cell values: numeric, text, or date. -/
inductive Value where
  | num (q : ℚ)
  | str (s : String)
  | date (d : ℤ)
deriving DecidableEq

/-- A cell of a table; `none` models a missing value (NaN / NaT / None). -/
abbrev Cell := Option Value

/-- A pandas DataFrame: named columns over row-aligned cell lists. -/
structure Table where
  header : List String
  rows : List (List Cell)
deriving DecidableEq

/-- First position of a name in a header, `none` when absent. -/
def idxOfName : List String → String → Option ℕ
  | [], _ => none
  | h :: t, c => if h = c then some 0 else (idxOfName t c).map (fun i => i + 1)

/-- Index of the first column with the given name, `none` when the column is
absent (whose access in the code raises `KeyError`). -/
def colIndex (df : Table) (c : String) : Option ℕ :=
  idxOfName df.header c

/-- Well-formedness of a table: every row has one cell per header entry
(pandas DataFrames are rectangular). -/
def Table.Rect (df : Table) : Prop :=
  ∀ r ∈ df.rows, r.length = df.header.length

instance (df : Table) : Decidable df.Rect :=
  List.decidableBAll _ df.rows

/-- The cells of column `i`, one per row (rows too short contribute `none`). -/
def colCells (df : Table) (i : ℕ) : List Cell :=
  df.rows.map (fun r => r.getD i none)

/-- The cells of the column named `c` (empty when absent); models `df[c]`. -/
def colCellsByName (df : Table) (c : String) : List Cell :=
  match colIndex df c with
  | some i => colCells df i
  | none => []

/-- Number of missing cells; models `col.isnull().sum()`. -/
def missingCount (cells : List Cell) : ℕ :=
  cells.countP (fun c => c.isNone)

/-- The non-missing values of a column. -/
def presentVals (cells : List Cell) : List Value :=
  cells.filterMap id

/-- Numeric dtype test, models `pd.api.types.is_numeric_dtype`: every
non-missing cell is numeric. -/
def isNumericCol (cells : List Cell) : Bool :=
  cells.all (fun c =>
    match c with
    | none => true
    | some (Value.num _) => true
    | some _ => false)

/-- The numeric values of a column (non-numeric and missing cells skipped). -/
def presentNums (cells : List Cell) : List ℚ :=
  cells.filterMap (fun c =>
    match c with
    | some (Value.num q) => some q
    | _ => none)

/-- Mean of a list of rationals; `none` models NaN (mean of an empty
selection, as pandas `Series.mean()` of an all-NaN column). -/
def meanQ (l : List ℚ) : Option ℚ :=
  if l.length = 0 then none else some (l.sum / (l.length : ℚ))

/-- Median, pandas style: middle element of the sorted list, or the average
of the two middle elements; `none` models NaN on an empty selection. -/
def medianQ (l : List ℚ) : Option ℚ :=
  if l.length = 0 then none
  else
    let s := l.mergeSort (fun a b => decide (a ≤ b))
    let n := l.length
    if n % 2 = 1 then some (s.getD (n / 2) 0)
    else some ((s.getD (n / 2 - 1) 0 + s.getD (n / 2) 0) / 2)

/-- Lexicographic Bool-valued order on character lists. -/
def charListLt : List Char → List Char → Bool
  | [], [] => false
  | [], _ :: _ => true
  | _ :: _, [] => false
  | a :: as, b :: bs => if a < b then true else if b < a then false else charListLt as bs

/-- Constructor rank, used to order values of different kinds. -/
def valueRank : Value → ℕ
  | Value.num _ => 0
  | Value.str _ => 1
  | Value.date _ => 2

/-- A deterministic strict order on values: numerically, lexicographically,
or chronologically within a kind, by kind rank across kinds. -/
def valueLt : Value → Value → Bool
  | Value.num a, Value.num b => decide (a < b)
  | Value.str a, Value.str b => charListLt a.data b.data
  | Value.date a, Value.date b => decide (a < b)
  | a, b => decide (valueRank a < valueRank b)

/-- Models `col.mode()[0]`: pandas returns the modes sorted ascending, so
`[0]` is the least most-frequent non-missing value; `none` models the
`KeyError` raised by `[0]` when the column has no non-missing value (the
mode Series is then empty). -/
def mode0 (cells : List Cell) : Option Value :=
  match presentVals cells with
  | [] => none
  | v :: t =>
    some ((v :: t).foldl (fun acc w =>
      let cw := (v :: t).count w
      let ca := (v :: t).count acc
      if ca < cw then w
      else if cw = ca ∧ valueLt w acc = true then w
      else acc) v)

/-- Left-pad a string with zeros to the given length. -/
def padZeros (k : ℕ) (s : String) : String :=
  String.mk (List.replicate (k - s.length) '0') ++ s

/-- Fixed-point decimal rendering of a rational, models Python `f"{x:.prec f}"`
(rounding ties, which arise in no statement below, are taken upward). -/
def fmtFixed (prec : ℕ) (q : ℚ) : String :=
  let scaled : ℤ := round (q * ((10 : ℚ) ^ prec))
  let sign := if scaled < 0 then "-" else ""
  let a := scaled.natAbs
  let base := (10 : ℕ) ^ prec
  sign ++ toString (a / base) ++ "." ++ padZeros prec (toString (a % base))

/-- Rendering of an optional mean/median: `none` (NaN) prints as "nan",
as Python `f"{float('nan'):.2f}"` does. -/
def fmtMean : Option ℚ → String
  | none => "nan"
  | some q => fmtFixed 2 q

/-- Date rendering `yyyy-mm-dd`, models `Timestamp.date()` display. -/
def fmtDate (d : ℤ) : String :=
  let a := d.natAbs
  padZeros 4 (toString (a / 10000)) ++ "-" ++ padZeros 2 (toString (a / 100 % 100))
    ++ "-" ++ padZeros 2 (toString (a % 100))

/-- Display of a cell value inside a message, models Python `str(v)` (the
float repr of a non-integral rational is abbreviated to two decimals; no
claim depends on this rendering). -/
def showValue : Value → String
  | Value.num q => if q.den = 1 then toString q.num ++ ".0" else fmtFixed 2 q
  | Value.str s => s
  | Value.date d => fmtDate d

/-- Thousands-separated rendering of a natural number, models Python
`f"{n:,}"`. -/
def natWithCommas (k : ℕ) : String :=
  let ds := (toString k).data.reverse
  String.mk ((ds.enum.map (fun p => if p.1 ≠ 0 ∧ p.1 % 3 = 0 then [',', p.2] else [p.2])).flatten.reverse)

/-- Write cell `c` into position `i` of every row's copy, after applying `f`
to the current cell; models the in-place column assignment
`df_clean[column] = df_clean[column].map-or-fillna(...)`. -/
def fillColAt (df : Table) (i : ℕ) (f : Cell → Cell) : Table :=
  ⟨df.header, df.rows.map (fun r => r.set i (f (r.getD i none)))⟩

/-- Embedding of `modules/cleaning.py: impute_column`.  Returns `none` where
the Python code raises (`df[column]` on an absent column, or `mode()[0]` on
a column whose every value is missing), and otherwise the pair
`(df_clean, log_msg)` the code returns. -/
def impute_column (df : Table) (column strategy : String) : Option (Table × String) :=
  match colIndex df column with
  | none => none
  | some i =>
    let cells := colCells df i
    let initialMissing := missingCount cells
    if initialMissing = 0 then
      some (df, "No missing values in '" ++ column ++ "' to impute.")
    else if strategy = "Drop Rows" then
      some (⟨df.header, df.rows.filter (fun r => !(r.getD i none).isNone)⟩,
        "Dropped " ++ toString initialMissing ++ " rows with missing '" ++ column ++ "'")
    else if strategy = "Mean" ∧ isNumericCol cells = true then
      let meanVal := meanQ (presentNums cells)
      some (fillColAt df i (fun c => if c.isNone then meanVal.map Value.num else c),
        "Filled missing '" ++ column ++ "' with Mean: " ++ fmtMean meanVal)
    else if strategy = "Median" ∧ isNumericCol cells = true then
      let medianVal := medianQ (presentNums cells)
      some (fillColAt df i (fun c => if c.isNone then medianVal.map Value.num else c),
        "Filled missing '" ++ column ++ "' with Median: " ++ fmtMean medianVal)
    else if strategy = "Mode" then
      match mode0 cells with
      | none => none
      | some m =>
        some (fillColAt df i (fun c => if c.isNone then some m else c),
          "Filled missing '" ++ column ++ "' with Mode: " ++ showValue m)
    else
      some (df, "Strategy '" ++ strategy ++ "' not applicable for column '" ++ column ++ "'")

/-- Object-level embedding of `impute_column`, for the mutation claim.  The
heap is a list of table objects: slot 0 holds the object the caller's `df`
references; slot 1 holds `df_clean = df.copy()` (line 17 of the source); a
slot 2 is allocated by `dropna`, which returns a fresh object and rebinds
`df_clean`.  In-place writes (`df_clean[column] = ...`) overwrite slot 1.
The second component is the reference and message the call returns, `none`
modelling a raised `KeyError`. -/
def imputeHeap (df : Table) (column strategy : String) : List Table × Option (ℕ × String) :=
  match colIndex df column with
  | none => ([df, df], none)
  | some i =>
    let cells := colCells df i
    let initialMissing := missingCount cells
    if initialMissing = 0 then
      ([df, df], some (1, "No missing values in '" ++ column ++ "' to impute."))
    else if strategy = "Drop Rows" then
      ([df, df, ⟨df.header, df.rows.filter (fun r => !(r.getD i none).isNone)⟩],
        some (2, "Dropped " ++ toString initialMissing ++ " rows with missing '" ++ column ++ "'"))
    else if strategy = "Mean" ∧ isNumericCol cells = true then
      let meanVal := meanQ (presentNums cells)
      ([df, fillColAt df i (fun c => if c.isNone then meanVal.map Value.num else c)],
        some (1, "Filled missing '" ++ column ++ "' with Mean: " ++ fmtMean meanVal))
    else if strategy = "Median" ∧ isNumericCol cells = true then
      let medianVal := medianQ (presentNums cells)
      ([df, fillColAt df i (fun c => if c.isNone then medianVal.map Value.num else c)],
        some (1, "Filled missing '" ++ column ++ "' with Median: " ++ fmtMean medianVal))
    else if strategy = "Mode" then
      match mode0 cells with
      | none => ([df, df], none)
      | some m =>
        ([df, fillColAt df i (fun c => if c.isNone then some m else c)],
          some (1, "Filled missing '" ++ column ++ "' with Mode: " ++ showValue m))
    else
      ([df, df], some (0, "Strategy '" ++ strategy ++ "' not applicable for column '" ++ column ++ "'"))

/-- Split a character list at dashes (the character-level counterpart of
`"...".split("-")`). -/
def splitOnDash : List Char → List (List Char)
  | [] => [[]]
  | c :: t =>
    let r := splitOnDash t
    if c = '-' then [] :: r
    else
      match r with
      | [] => [[c]]
      | h :: t2 => (c :: h) :: t2

/-- Decimal digits to a natural number; `none` on the empty list or any
non-digit character. -/
def digitsToNat? (cs : List Char) : Option ℕ :=
  if cs = [] then none
  else cs.foldl (fun acc c =>
    acc.bind (fun n => if c.isDigit then some (n * 10 + (c.toNat - '0'.toNat)) else none))
    (some 0)

/-- Integer-shaped text to an integer (optional leading minus sign). -/
def strToInt? (s : String) : Option ℤ :=
  match s.data with
  | '-' :: rest => (digitsToNat? rest).map (fun n => -(n : ℤ))
  | cs => (digitsToNat? cs).map (fun n => (n : ℤ))

/-- Best-effort ISO date parse of a string, models the formats exercised in
this repository of `pd.to_datetime(..., errors := coerce)` on text. -/
def parseDateStr (s : String) : Option ℤ :=
  match splitOnDash s.data with
  | [ys, ms, ds] =>
    match digitsToNat? ys, digitsToNat? ms, digitsToNat? ds with
    | some y, some m, some d =>
      if 1 ≤ m ∧ m ≤ 12 ∧ 1 ≤ d ∧ d ≤ 31 then some ((y : ℤ) * 10000 + m * 100 + d)
      else none
    | _, _, _ => none
  | _ => none

/-- Per-cell model of `pd.to_datetime(col, errors := coerce)`: missing stays
missing, dates pass through, numbers are read as epoch offsets, text is
parsed best-effort; unparsable cells become missing (NaT). -/
def parseDateCell : Cell → Cell
  | none => none
  | some (Value.date d) => some (Value.date d)
  | some (Value.num q) => some (Value.date ⌊q⌋)
  | some (Value.str s) => (parseDateStr s).map Value.date

/-- Embedding of `modules/cleaning.py: fix_date_format`; `none` models the
`KeyError` on an absent column. -/
def fix_date_format (df : Table) (column : String) : Option (Table × String) :=
  match colIndex df column with
  | none => none
  | some i =>
    let dfClean : Table := ⟨df.header, df.rows.map (fun r => r.set i (parseDateCell (r.getD i none)))⟩
    let validCount := (colCells dfClean i).countP (fun c => !c.isNone)
    let totalCount := dfClean.rows.length
    some (dfClean,
      "Fixed format for '" ++ column ++ "'. " ++ toString validCount ++ "/"
        ++ toString totalCount ++ " valid dates.")

/-- Key fields of `modules/data_audit.py: run_audit` (critical for analysis). -/
def keyFields : List String :=
  ["Report Number", "Crash Date/Time", "Latitude", "Longitude"]

/-- The logical identifier column of the audit. -/
def primaryKey : String := "Report Number"

/-- One row of the audit's details table. -/
structure ColStat where
  name : String
  dtypeStr : String
  missingPctStr : String
  uniqueVals : ℕ
  status : String
deriving DecidableEq

/-- Result of `run_audit`. -/
structure AuditResult where
  score : ℤ
  summary : List String
  details : List ColStat
  timelinessStr : String
deriving DecidableEq

/-- Approximate dtype display of a column (the details table records
`str(col.dtype)`; no claim depends on this rendering). -/
def dtypeOf (cells : List Cell) : String :=
  if isNumericCol cells then "float64"
  else if cells.all (fun c =>
    match c with
    | none => true
    | some (Value.date _) => true
    | some _ => false) then "datetime64[ns]"
  else "object"

/-- Models `col.nunique()`: distinct non-missing values. -/
def uniqueCount (cells : List Cell) : ℕ :=
  (presentVals cells).dedup.length

/-- Datetime dtype test, models `pd.api.types.is_datetime64_any_dtype`. -/
def isDatetimeCol (cells : List Cell) : Bool :=
  cells.all (fun c =>
    match c with
    | none => true
    | some (Value.date _) => true
    | some _ => false)

/-- The date carried by a cell, if any. -/
def cellDate : Cell → Option ℤ
  | some (Value.date d) => some d
  | _ => none

/-- Year of a `yyyymmdd`-encoded date. -/
def yearOf (d : ℤ) : ℤ := d / 10000

/-- Missing percentage of a column: `(missing_count / total_rows) * 100`. -/
def missingPct (n : ℕ) (cells : List Cell) : ℚ :=
  ((missingCount cells : ℚ) / (n : ℚ)) * 100

/-- Per-cell model of `pd.to_numeric(col, errors := coerce)`: numbers pass
through, integer-shaped text parses, everything else becomes NaN. -/
def toNumericCell : Cell → Option ℚ
  | some (Value.num q) => some q
  | some (Value.str s) => (strToInt? s).map (fun z => (z : ℚ))
  | _ => none

/-- Consistency (duplicate) check of `run_audit`, lines 36-46: deduction and
findings.  `duplicated(subset := [pk]).sum()` counts every repeated
occurrence, i.e. row count minus the number of distinct identifier cells. -/
def consistencyCheck (df : Table) : ℤ × List String :=
  if primaryKey ∈ df.header then
    let cells := colCellsByName df primaryKey
    let dup := df.rows.length - cells.dedup.length
    let rate : ℚ := ((dup : ℚ) / (df.rows.length : ℚ)) * 100
    if 0 < dup then
      (20, ["🔴 Found " ++ toString dup ++ " duplicate records based on '" ++ primaryKey
        ++ "' (" ++ fmtFixed 2 rate ++ "%)."])
    else (0, ["✅ No duplicates found in Primary Key."])
  else (0, ["⚠️ Primary Key '" ++ primaryKey ++ "' not found in dataset."])

/-- Timeliness check of `run_audit`, lines 48-76: deduction, findings and
the date-range display string. -/
def timelinessCheck (now : ℤ) (df : Table) : ℤ × List String × String :=
  if "Crash Date/Time" ∈ df.header then
    let col := colCellsByName df "Crash Date/Time"
    let tempDates := if isDatetimeCol col = true then col else col.map parseDateCell
    match tempDates.filterMap cellDate with
    | [] => (0, ["⚠️ 'Crash Date/Time' column exists but contains no valid dates."], "Unknown")
    | d :: ds =>
      let minDate := ds.foldl min d
      let maxDate := ds.foldl max d
      let status := "From " ++ fmtDate minDate ++ " to " ++ fmtDate maxDate
      let futureDates := (d :: ds).filter (fun x => decide (now < x))
      let futPart : ℤ × List String :=
        if 0 < futureDates.length then
          (10, ["🔴 Found " ++ toString futureDates.length ++ " records with future dates."])
        else (0, [])
      let stalePart : List String :=
        if maxDate < now - 40000 then
          ["⚠️ Data might be outdated. Latest record is from " ++ toString (yearOf maxDate) ++ "."]
        else []
      (futPart.1, futPart.2 ++ stalePart, status)
  else (0, [], "Unknown")

/-- Body of the per-column loop of `run_audit`, lines 79-118: score
deduction, details-table row, and findings for one column.  `n` is the
table's row count (positive: the empty table short-circuits earlier). -/
def colAudit (n : ℕ) (now : ℤ) (name : String) (cells : List Cell) : ℤ × ColStat × List String :=
  let pct : ℚ := missingPct n cells
  let c1 : String × ℤ × List String :=
    if 0 < pct then
      if name ∈ keyFields ∧ 1 < pct then
        ("Critical", 5, ["🔴 Critical Field '" ++ name ++ "' has " ++ fmtFixed 1 pct
          ++ "% missing values (High Risk)."])
      else if 5 < pct then ("Warning", 1, [])
      else ("Warning", 0, [])
    else ("Valid", 0, [])
  let c2 : String × ℤ × List String :=
    if name = "Vehicle Year" then
      let numericYears := cells.filterMap toNumericCell
      let invalidYears := numericYears.filter (fun q => decide (q < 1900) || decide (((yearOf now + 1 : ℤ) : ℚ) < q))
      if 0 < invalidYears.length then
        ("Critical", 5, ["🔴 '" ++ name ++ "' contains " ++ toString invalidYears.length
          ++ " invalid year values (<1900 or Future)."])
      else (c1.1, 0, [])
    else (c1.1, 0, [])
  (c1.2.1 + c2.2.1,
    ⟨name, dtypeOf cells, fmtFixed 2 pct ++ "%", uniqueCount cells, c2.1⟩,
    c1.2.2 ++ c2.2.2)

/-- Embedding of `modules/data_audit.py: run_audit`.  `now` is the current
date (`yyyymmdd`); the code reads the clock via `pd.Timestamp.now()` and
`datetime.datetime.now().year`, modelled as this single parameter. -/
def run_audit (now : ℤ) (df : Table) : AuditResult :=
  if df.rows.length = 0 then
    ⟨0, ["Dataset is empty."], [], "No data"⟩
  else
    let n := df.rows.length
    let con := consistencyCheck df
    let tim := timelinessCheck now df
    let colResults := df.header.map (fun c => colAudit n now c (colCellsByName df c))
    let score : ℤ := 100 - con.1 - tim.1 - (colResults.map (fun x => x.1)).sum
    ⟨max 0 (min 100 score),
      con.2 ++ tim.2.1 ++ (colResults.map (fun x => x.2.2)).flatten,
      colResults.map (fun x => x.2.1),
      tim.2.2⟩

/-- The categorical column the insight generator targets: first existing
name of the fixed priority list. -/
def targetColOf (df : Table) : Option String :=
  if "Collision Type" ∈ df.header then some "Collision Type"
  else if "Agency Name" ∈ df.header then some "Agency Name"
  else none

/-- Models `col.value_counts().idxmax()` / `.max()`: the first-encountered
non-missing value of maximal frequency, with its count.  `none` when the
column has no non-missing value (`value_counts()` is then empty).  On a tie
pandas's ordering is implementation-defined; this model fixes
first-appearance order (the spec leaves the tie-break to the
implementation). -/
def topValue (cells : List Cell) : Option (Value × ℕ) :=
  match presentVals cells with
  | [] => none
  | v :: t =>
    some ((v :: t).foldl (fun acc w =>
      let cw := (v :: t).count w
      if acc.2 < cw then (w, cw) else acc) (v, (v :: t).count v))

/-- First insight template of `modules/insights.py` (lines 31-38, after
`.strip()`); the non-ASCII runs reproduce the file's exact characters. -/
def insightBlock1 (targetCol : String) (topCat : Value) (topCount : ℕ) (percent : ℚ) : String :=
  "### üí° Key Insight: Dominant Trend\n* **What (‡πÄ‡∏Å‡∏¥‡∏î‡∏≠‡∏∞‡πÑ‡∏£‡∏Ç‡∏∂‡πâ‡∏ô):** "
    ++ targetCol ++ " '" ++ showValue topCat ++ "' is the most frequent, appearing "
    ++ natWithCommas topCount
    ++ " times.\n* **Why (‡∏ó‡∏≥‡πÑ‡∏°‡∏ñ‡∏∂‡∏á‡πÄ‡∏õ‡πá‡∏ô‡πÅ‡∏ö‡∏ö‡∏ô‡∏±‡πâ‡∏ô):** This category accounts for "
    ++ fmtFixed 1 percent
    ++ "% of all recorded events, indicating a significant pattern.\n* **So What (‡∏™‡∏≥‡∏Ñ‡∏±‡∏ç‡∏≠‡∏¢‡πà‡∏≤‡∏á‡πÑ‡∏£):** A high concentration in '"
    ++ showValue topCat
    ++ "' drives the majority of incident volume.\n* **Now What (‡∏ó‡∏≥‡∏≠‡∏∞‡πÑ‡∏£‡∏ï‡πà‡∏≠):** Focus preventive measures and resource allocation specifically on mitigating '"
    ++ showValue topCat ++ "'."

/-- Second insight template of `modules/insights.py` (lines 50-57, after
`.strip()`); the non-ASCII runs reproduce the file's exact characters. -/
def insightBlock2 (worstCol : String) (missCount : ℕ) (missingPct : ℚ) : String :=
  "### üö® Key Insight: Data Pain Point\n* **What (‡πÄ‡∏Å‡∏¥‡∏î‡∏≠‡∏∞‡πÑ‡∏£‡∏Ç‡∏∂‡πâ‡∏ô):** The column '"
    ++ worstCol ++ "' has " ++ natWithCommas missCount ++ " missing values ("
    ++ fmtFixed 1 missingPct
    ++ "%).\n* **Why (‡∏ó‡∏≥‡πÑ‡∏°‡∏ñ‡∏∂‡∏á‡πÄ‡∏õ‡πá‡∏ô‡πÅ‡∏ö‡∏ö‡∏ô‡∏±‡πâ‡∏ô):** Likely due to optional data entry or system integration gaps.\n* **So What (‡∏™‡∏≥‡∏Ñ‡∏±‡∏ç‡∏≠‡∏¢‡πà‡∏≤‡∏á‡πÑ‡∏£):** This high missing rate compromises analysis related to '"
    ++ worstCol
    ++ "'.\n* **Now What (‡∏ó‡∏≥‡∏≠‡∏∞‡πÑ‡∏£‡∏ï‡πà‡∏≠):** Implement mandatory field checks or use the 'Data Cleaning' module to impute values."

/-- Embedding of `modules/insights.py: generate_insights`.  `df.empty` is
true when the table has no rows or no columns. -/
def generate_insights (df : Table) : List String :=
  if df.rows.length = 0 ∨ df.header.length = 0 then
    ["No data available to generate insights."]
  else
    let part1 : List String :=
      match targetColOf df with
      | none => []
      | some c =>
        match topValue (colCellsByName df c) with
        | none => []
        | some (topCat, topCount) =>
          let percent : ℚ := ((topCount : ℚ) / (df.rows.length : ℚ)) * 100
          [insightBlock1 c topCat topCount percent]
    let part2 : List String :=
      match df.header.map (fun c => (c, missingCount (colCellsByName df c))) with
      | [] => []
      | m :: ms =>
        let worst := (m :: ms).foldl (fun acc p => if acc.2 < p.2 then p else acc) m
        if 0 < worst.2 then
          let missingPct : ℚ := ((worst.2 : ℚ) / (df.rows.length : ℚ)) * 100
          if 5 < missingPct then [insightBlock2 worst.1 worst.2 missingPct] else []
        else []
    part1 ++ part2

/-- Bool substring test on character lists: does `pat` start `xs`? -/
def charListStart : List Char → List Char → Bool
  | _, [] => true
  | [], _ :: _ => false
  | x :: xs, y :: ys => x == y && charListStart xs ys

/-- Bool substring test on character lists: does `pat` occur in `xs`? -/
def charListHas (xs pat : List Char) : Bool :=
  if charListStart xs pat then true
  else
    match xs with
    | [] => false
    | _ :: t => charListHas t pat

/-- Substring containment of strings, used to state the message claims. -/
def containsSub (s pat : String) : Bool :=
  charListHas s.data pat.data

/-- Defect introduction for the audit monotonicity claim: a table with one
extra row appended. -/
def withExtraRow (df : Table) (r : List Cell) : Table :=
  ⟨df.header, df.rows ++ [r]⟩

/-- Defect introduction for the audit monotonicity claim: one cell of the
table replaced (row `j`, column position `i`). -/
def setCellAt (df : Table) (j i : ℕ) (c : Cell) : Table :=
  ⟨df.header, df.rows.set j ((df.rows.getD j []).set i c)⟩

section ListHelpers

variable {α : Type _} {β : Type _}

lemma getD_set_self (l : List α) (i : ℕ) (a d : α) :
    (l.set i a).getD i d = if i < l.length then a else d := by
  induction l generalizing i with
  | nil => simp
  | cons x t ih =>
    cases i with
    | zero => simp
    | succ k => simpa using ih k

lemma getD_set_ne (l : List α) (i i' : ℕ) (a d : α) (h : i ≠ i') :
    (l.set i a).getD i' d = l.getD i' d := by
  rw [List.getD_eq_getElem?_getD, List.getD_eq_getElem?_getD, List.getElem?_set_ne h]

lemma set_getD_self_eq (l : List α) (j : ℕ) (d : α) :
    l.set j (l.getD j d) = l := by
  induction l generalizing j with
  | nil => rfl
  | cons x t ih =>
    cases j with
    | zero => simp
    | succ k => simpa using ih k

lemma lt_length_of_getD_ne (l : List α) (i : ℕ) (d : α) (h : l.getD i d ≠ d) :
    i < l.length := by
  by_contra hc
  exact h (List.getD_eq_default _ _ (le_of_not_lt hc))

lemma getD_mem_of_lt (l : List α) (i : ℕ) (d : α) (h : i < l.length) :
    l.getD i d ∈ l := by
  rw [List.getD_eq_getElem?_getD, List.getElem?_eq_getElem h]
  exact List.getElem_mem h

lemma getD_map_of_lt (f : α → β) (l : List α) (i : ℕ) (d : α) (d' : β) (h : i < l.length) :
    (l.map f).getD i d' = f (l.getD i d) := by
  rw [List.getD_eq_getElem?_getD, List.getD_eq_getElem?_getD, List.getElem?_map,
    List.getElem?_eq_getElem h]
  rfl

lemma countP_set_same (p : α → Bool) (l : List α) (j : ℕ) (a d : α)
    (h : j < l.length) (hp : p a = p (l.getD j d)) :
    (l.set j a).countP p = l.countP p := by
  induction l generalizing j with
  | nil => simp at h
  | cons x t ih =>
    cases j with
    | zero =>
      simp only [List.getD_cons_zero] at hp
      simp [List.countP_cons, hp]
    | succ k =>
      simp only [List.getD_cons_succ] at hp
      have := ih k (by simpa using h) hp
      simp [List.countP_cons, this]

lemma mem_set_self (l : List α) (j : ℕ) (a : α) (h : j < l.length) :
    a ∈ l.set j a := by
  induction l generalizing j with
  | nil => simp at h
  | cons x t ih =>
    cases j with
    | zero => simp
    | succ k => simpa using Or.inr (ih k (by simpa using h))

lemma dedup_length_append_mem [DecidableEq α] (l : List α) (a : α) (h : a ∈ l) :
    (l ++ [a]).dedup.length = l.dedup.length := by
  rw [← List.card_toFinset, ← List.card_toFinset]
  congr 1
  rw [List.toFinset_append]
  simp [h]

lemma idxOfName_some_lt (l : List String) (c : String) (i : ℕ)
    (h : idxOfName l c = some i) : i < l.length := by
  induction l generalizing i with
  | nil => simp [idxOfName] at h
  | cons x t ih =>
    by_cases hx : x = c
    · simp only [idxOfName, if_pos hx, Option.some.injEq] at h
      simp only [List.length_cons]
      omega
    · simp only [idxOfName, if_neg hx, Option.map_eq_some'] at h
      obtain ⟨k, hk, rfl⟩ := h
      have := ih k hk
      simp only [List.length_cons]
      omega

lemma idxOfName_getElem? (l : List String) (c : String) (i : ℕ)
    (h : idxOfName l c = some i) : l[i]? = some c := by
  induction l generalizing i with
  | nil => simp [idxOfName] at h
  | cons x t ih =>
    by_cases hx : x = c
    · simp [idxOfName, hx] at h
      subst h
      simpa using hx
    · simp only [idxOfName, if_neg hx, Option.map_eq_some'] at h
      obtain ⟨k, hk, rfl⟩ := h
      simpa using ih k hk

lemma idxOfName_mem (l : List String) (c : String) (i : ℕ)
    (h : idxOfName l c = some i) : c ∈ l := by
  have hlt := idxOfName_some_lt l c i h
  have hg := idxOfName_getElem? l c i h
  rw [List.getElem?_eq_getElem hlt] at hg
  have hm := List.getElem_mem hlt
  rwa [Option.some.inj hg] at hm

lemma mem_idxOfName (l : List String) (c : String) (h : c ∈ l) :
    ∃ i, idxOfName l c = some i := by
  induction l with
  | nil => simp at h
  | cons x t ih =>
    by_cases hx : x = c
    · exact ⟨0, by simp [idxOfName, hx]⟩
    · have hc : c ∈ t := by
        rcases List.mem_cons.mp h with h' | h'
        · exact absurd h'.symm hx
        · exact h'
      obtain ⟨k, hk⟩ := ih hc
      exact ⟨k + 1, by simp [idxOfName, hx, hk]⟩

lemma idxOfName_ne_of_names_ne (l : List String) (c c' : String) (i i' : ℕ)
    (h1 : idxOfName l c = some i) (h2 : idxOfName l c' = some i') (hcc : c ≠ c') :
    i ≠ i' := by
  intro he
  subst he
  have e1 := idxOfName_getElem? l c i h1
  have e2 := idxOfName_getElem? l c' i h2
  rw [e1] at e2
  exact hcc (Option.some.inj e2)

end ListHelpers

lemma length_filter_not_add_countP (p : α → Bool) (l : List α) :
    (l.filter (fun a => !p a)).length + l.countP p = l.length := by
  induction l with
  | nil => rfl
  | cons x t ih =>
    by_cases hx : p x = true
    · simp [List.filter_cons, List.countP_cons, hx]
      omega
    · simp [List.filter_cons, List.countP_cons, hx]
      omega

lemma colCells_fillColAt (df : Table) (i : ℕ) (f : Cell → Cell)
    (hrect : df.Rect) (hlt : i < df.header.length) :
    colCells (fillColAt df i f) i = (colCells df i).map f := by
  unfold colCells fillColAt
  dsimp only
  rw [List.map_map, List.map_map]
  apply List.map_congr_left
  intro r hr
  have hri : i < r.length := by rw [hrect r hr]; exact hlt
  dsimp only [Function.comp]
  rw [getD_set_self, if_pos hri]

/-- Example table of the spec's end-to-end scenarios: one numeric column
`A` with values `[1, absent, 3]`. -/
def tblA : Table := ⟨["A"], [[some (Value.num 1)], [none], [some (Value.num 3)]]⟩

/-- C1: `impute_column` never mutates its input table.  At object level
(`imputeHeap`, where heap slot 0 is the caller's `df` object), every branch
of the function — no-missing no-op, Drop Rows, Mean, Median, Mode,
inapplicable strategy, and the error paths — leaves the input object
holding its original value: the code copies first (`df_clean = df.copy()`)
and writes only to the copy or to freshly allocated objects. -/
theorem impute_column_never_mutates_input (df : Table) (column strategy : String) :
    (imputeHeap df column strategy).1.head? = some df := by
  unfold imputeHeap
  cases colIndex df column with
  | none => rfl
  | some i =>
    dsimp only
    split_ifs <;> try rfl
    cases mode0 (colCells df i) <;> rfl

/-- Table whose only column has every value missing: the failing input of
the totality claim. -/
def allMissingTbl : Table := ⟨["A"], [[none], [none]]⟩

/-- C4: the totality claim fails on the code.  On a column whose values are
all missing, strategy Mode evaluates `df_clean[column].mode()[0]`; the mode
Series of an all-NaN column is empty, so `[0]` raises `KeyError` (modelled
as `none`) instead of returning normally. -/
theorem impute_mode_all_missing_raises :
    impute_column allMissingTbl "A" "Mode" = none := by decide

/-- C6: `run_audit` on a table with zero rows short-circuits to score 0,
the single finding "Dataset is empty.", empty column statistics and the
"No data" timeliness string; no other check contributes. -/
theorem run_audit_empty_dataset (now : ℤ) (header : List String) :
    run_audit now ⟨header, []⟩ = ⟨0, ["Dataset is empty."], [], "No data"⟩ := rfl

/-- C7: `impute_column` with strategy Drop Rows on a column with `k > 0`
missing values returns a table with exactly `k` fewer rows, and the
message reports `k`. -/
theorem impute_drop_rows_row_count (df : Table) (column : String) (i k : ℕ)
    (hi : colIndex df column = some i)
    (hk : missingCount (colCells df i) = k) (hpos : 0 < k) :
    ∃ df' : Table,
      impute_column df column "Drop Rows" =
        some (df', "Dropped " ++ toString k ++ " rows with missing '" ++ column ++ "'") ∧
      df'.rows.length + k = df.rows.length ∧ df'.header = df.header := by
  refine ⟨⟨df.header, df.rows.filter (fun r => !(r.getD i none).isNone)⟩, ?_, ?_, rfl⟩
  · unfold impute_column
    rw [hi]
    dsimp only
    rw [hk, if_neg (by omega), if_pos rfl]
  · subst hk
    simp only [missingCount, colCells, List.countP_map]
    exact length_filter_not_add_countP _ _

/-- Witness for C7 at the concrete column `[1, absent, 3]` (`k = 1`). -/
theorem impute_drop_rows_row_count_witness :
    (impute_column tblA "A" "Drop Rows" =
      some (⟨["A"], [[some (Value.num 1)], [some (Value.num 3)]]⟩,
        "Dropped 1 rows with missing 'A'")) ∧
    (∃ df' : Table,
      impute_column tblA "A" "Drop Rows" =
        some (df', "Dropped " ++ toString 1 ++ " rows with missing 'A'") ∧
      df'.rows.length + 1 = tblA.rows.length ∧ df'.header = tblA.header) :=
  ⟨by decide, impute_drop_rows_row_count tblA "A" 0 1 (by decide) (by decide) (by decide)⟩

/-- C8: Mean/Median on a non-numeric column with missing values is a
deliberate no-op: the code falls through to the final `else` and returns
the original table together with the "not applicable" message (not an
error). -/
theorem impute_mean_median_non_numeric_noop (df : Table) (column strategy : String) (i : ℕ)
    (hi : colIndex df column = some i)
    (hnum : isNumericCol (colCells df i) = false)
    (hmiss : 0 < missingCount (colCells df i))
    (hs : strategy = "Mean" ∨ strategy = "Median") :
    impute_column df column strategy =
      some (df, "Strategy '" ++ strategy ++ "' not applicable for column '" ++ column ++ "'") := by
  unfold impute_column
  rw [hi]
  dsimp only
  rcases hs with rfl | rfl
  · rw [if_neg (by omega), if_neg (by decide), if_neg (by simp [hnum]),
      if_neg (fun h => absurd h.1 (by decide)), if_neg (by decide)]
  · rw [if_neg (by omega), if_neg (by decide), if_neg (fun h => absurd h.1 (by decide)),
      if_neg (by simp [hnum]), if_neg (by decide)]

/-- Non-numeric example column with a missing value. -/
def tblB : Table := ⟨["B"], [[some (Value.str "x")], [none]]⟩

/-- Witness for C8: Mean on the text column `["x", absent]` returns the
original table and the "not applicable" message. -/
theorem impute_mean_median_non_numeric_noop_witness :
    impute_column tblB "B" "Mean" =
      some (tblB, "Strategy '" ++ "Mean" ++ "' not applicable for column '" ++ "B" ++ "'") :=
  impute_mean_median_non_numeric_noop tblB "B" "Mean" 0 (by decide) (by decide)
    (by decide) (Or.inl rfl)

/-- The claim's notion of rounding to 2 decimal places.  Modelled from the
spec's words ("the fill value equals the mean of the non-missing values
rounded to 2 decimals"), for comparison with what the code computes. -/
def specRound2 (q : ℚ) : ℚ :=
  ((round (q * 100) : ℤ) : ℚ) / 100

/-- Column `[1, 0, 0, absent]`, whose mean `1/3` is not equal to its own
2-decimal rounding. -/
def meanCexTbl : Table :=
  ⟨["x"], [[some (Value.num 1)], [some (Value.num 0)], [some (Value.num 0)], [none]]⟩

/-- Counterexample to C2 as stated: on the numeric column `[1, 0, 0, absent]`
Mean imputation fills the missing cell with the exact mean `1/3`, not with
the mean rounded to 2 decimal places (`0.33`); only the log message rounds
(it reports "0.33"). -/
theorem impute_mean_fill_not_rounded_cex :
    impute_column meanCexTbl "x" "Mean" =
      some (⟨["x"], [[some (Value.num 1)], [some (Value.num 0)], [some (Value.num 0)],
        [some (Value.num (1/3))]]⟩, "Filled missing 'x' with Mean: 0.33") ∧
    (1/3 : ℚ) ≠ specRound2 (1/3) := by with_unfolding_all decide

/-- C2 (amended): on a numeric column with at least one missing and at
least one present value, Mean imputation removes every missing value from
the column, filling each formerly-missing cell with the exact
(unrounded) mean of the non-missing values, and the message reports the
mean rounded to 2 decimals. -/
theorem impute_mean_fills_exact_mean (df : Table) (column : String) (i : ℕ) (m : ℚ)
    (hrect : df.Rect)
    (hi : colIndex df column = some i)
    (hnum : isNumericCol (colCells df i) = true)
    (hmiss : 0 < missingCount (colCells df i))
    (hm : meanQ (presentNums (colCells df i)) = some m) :
    ∃ df' : Table,
      impute_column df column "Mean" =
        some (df', "Filled missing '" ++ column ++ "' with Mean: " ++ fmtFixed 2 m) ∧
      df'.header = df.header ∧
      colCells df' i = (colCells df i).map (fun c => if c.isNone then some (Value.num m) else c) ∧
      missingCount (colCells df' i) = 0 := by
  have hlt : i < df.header.length := idxOfName_some_lt _ _ _ hi
  refine ⟨fillColAt df i
    (fun c => if c.isNone then (meanQ (presentNums (colCells df i))).map Value.num else c),
    ?_, rfl, ?_, ?_⟩
  · unfold impute_column
    rw [hi]
    dsimp only
    rw [if_neg (by omega), if_neg (by decide), if_pos ⟨rfl, hnum⟩, hm]
    rfl
  · rw [colCells_fillColAt df i _ hrect hlt, hm]
    rfl
  · rw [colCells_fillColAt df i _ hrect hlt, hm]
    unfold missingCount
    rw [List.countP_map]
    apply List.countP_eq_zero.mpr
    intro a _
    cases a <;> simp

/-- Witness for C2 (amended) at the end-to-end scenario column
`[1, absent, 3]`: result column `[1, 2.0, 3]`, message
"Filled missing 'A' with Mean: 2.00", which contains "Mean" and "2.00". -/
theorem impute_mean_fills_exact_mean_witness :
    (impute_column tblA "A" "Mean" =
      some (⟨["A"], [[some (Value.num 1)], [some (Value.num 2)], [some (Value.num 3)]]⟩,
        "Filled missing 'A' with Mean: 2.00") ∧
     containsSub "Filled missing 'A' with Mean: 2.00" "Mean" = true ∧
     containsSub "Filled missing 'A' with Mean: 2.00" "2.00" = true) ∧
    (∃ df' : Table,
      impute_column tblA "A" "Mean" =
        some (df', "Filled missing '" ++ "A" ++ "' with Mean: " ++ fmtFixed 2 2) ∧
      df'.header = tblA.header ∧
      colCells df' 0 = (colCells tblA 0).map (fun c => if c.isNone then some (Value.num 2) else c) ∧
      missingCount (colCells df' 0) = 0) :=
  ⟨by with_unfolding_all decide, impute_mean_fills_exact_mean tblA "A" 0 2 (by decide) (by decide)
    (by decide) (by decide) (by with_unfolding_all decide)⟩

/-- C9: `fix_date_format` on any existing column never raises: it returns a
table of the same shape whose target column is the cell-wise best-effort
parse of the input column, so every cell that fails to parse is absent and
every cell that parses is a date; the message's `valid_count` is the number
of non-absent cells of the output column and its `total_count` the row
count. -/
theorem fix_date_format_spec (df : Table) (column : String) (i : ℕ)
    (hrect : df.Rect)
    (hi : colIndex df column = some i) :
    ∃ df' : Table,
      fix_date_format df column =
        some (df', "Fixed format for '" ++ column ++ "'. "
          ++ toString ((colCells df' i).countP (fun c => !c.isNone)) ++ "/"
          ++ toString df'.rows.length ++ " valid dates.") ∧
      df'.header = df.header ∧
      df'.rows.length = df.rows.length ∧
      colCells df' i = (colCells df i).map parseDateCell ∧
      (∀ c ∈ colCells df' i, c = none ∨ ∃ d, c = some (Value.date d)) := by
  have hlt : i < df.header.length := idxOfName_some_lt _ _ _ hi
  refine ⟨fillColAt df i parseDateCell, ?_, rfl, by simp [fillColAt], ?_, ?_⟩
  · unfold fix_date_format
    rw [hi]
    rfl
  · exact colCells_fillColAt df i _ hrect hlt
  · intro c hc
    rw [colCells_fillColAt df i _ hrect hlt] at hc
    obtain ⟨a, _, rfl⟩ := List.mem_map.mp hc
    match a with
    | none => exact Or.inl rfl
    | some (Value.date d) => exact Or.inr ⟨d, rfl⟩
    | some (Value.num q) => exact Or.inr ⟨⌊q⌋, rfl⟩
    | some (Value.str s) =>
      rcases h : parseDateStr s with _ | d
      · exact Or.inl (by simp [parseDateCell, h])
      · exact Or.inr ⟨d, by simp [parseDateCell, h]⟩

/-- Date-text column of the repository's own test scenario. -/
def tblD : Table :=
  ⟨["D"], [[some (Value.str "2020-01-01")], [some (Value.str "not a date")],
    [some (Value.str "2021-01-02")]]⟩

/-- Witness for C9 on the column `["2020-01-01", "not a date", "2021-01-02"]`:
the unparsable cell becomes absent, the others become dates, and the
message reports 2/3 valid dates. -/
theorem fix_date_format_spec_witness :
    (fix_date_format tblD "D" =
      some (⟨["D"], [[some (Value.date 20200101)], [none], [some (Value.date 20210102)]]⟩,
        "Fixed format for 'D'. 2/3 valid dates.")) ∧
    (∃ df' : Table,
      fix_date_format tblD "D" =
        some (df', "Fixed format for '" ++ "D" ++ "'. "
          ++ toString ((colCells df' 0).countP (fun c => !c.isNone)) ++ "/"
          ++ toString df'.rows.length ++ " valid dates.") ∧
      df'.header = tblD.header ∧
      df'.rows.length = tblD.rows.length ∧
      colCells df' 0 = (colCells tblD 0).map parseDateCell ∧
      (∀ c ∈ colCells df' 0, c = none ∨ ∃ d, c = some (Value.date d))) :=
  ⟨by decide, fix_date_format_spec tblD "D" 0 (by decide) (by decide)⟩

lemma colAudit_snd_of_ne_vy (n : ℕ) (now : ℤ) (name : String) (cells : List Cell)
    (hvy : name ≠ "Vehicle Year") :
    (colAudit n now name cells).2.1 =
      ⟨name, dtypeOf cells, fmtFixed 2 (missingPct n cells) ++ "%", uniqueCount cells,
        (if name ∈ keyFields ∧ 1 < missingPct n cells then "Critical"
         else if 0 < missingPct n cells then "Warning"
         else "Valid")⟩ := by
  unfold colAudit
  dsimp only
  rw [if_neg hvy]
  split_ifs with h1 h2 h3 h4 <;> first
    | rfl
    | (exfalso; first | exact h2 ⟨h4.1, h4.2⟩ | exact h4 ⟨h2.1, h2.2⟩ | linarith [h2.2] | linarith)

lemma colAudit_fst_of_ne_vy (n : ℕ) (now : ℤ) (name : String) (cells : List Cell)
    (hvy : name ≠ "Vehicle Year") :
    (colAudit n now name cells).1 =
      (if name ∈ keyFields ∧ 1 < missingPct n cells then 5
       else if 5 < missingPct n cells then 1
       else 0) := by
  unfold colAudit
  dsimp only
  rw [if_neg hvy]
  split_ifs with h1 h2 h3 h4 h5 <;> first
    | rfl
    | omega
    | (exfalso; first | exact h2 ⟨h4.1, h4.2⟩ | exact h4 ⟨h2.1, h2.2⟩ | linarith [h2.2] | linarith)

lemma colAudit_findings_of_ne_vy (n : ℕ) (now : ℤ) (name : String) (cells : List Cell)
    (hvy : name ≠ "Vehicle Year") :
    (colAudit n now name cells).2.2 =
      (if name ∈ keyFields ∧ 1 < missingPct n cells then
        ["🔴 Critical Field '" ++ name ++ "' has " ++ fmtFixed 1 (missingPct n cells)
          ++ "% missing values (High Risk)."]
       else []) := by
  unfold colAudit
  dsimp only
  rw [if_neg hvy]
  split_ifs with h1 h2 h3 h4
  · simp
  · simp
  · simp
  · exact absurd (lt_trans one_pos h4.2) h1
  · simp

lemma run_audit_summary_eq (now : ℤ) (df : Table) (hn : df.rows.length ≠ 0) :
    (run_audit now df).summary =
      (consistencyCheck df).2 ++ (timelinessCheck now df).2.1 ++
        (df.header.map
          (fun c => (colAudit df.rows.length now c (colCellsByName df c)).2.2)).flatten := by
  unfold run_audit
  rw [if_neg hn]
  dsimp only
  rw [List.map_map]
  rfl

/-- Single-column table on which the completeness status rule is overridden
by the Vehicle Year accuracy check. -/
def vyTbl : Table := ⟨["Vehicle Year"], [[some (Value.num 1800)]]⟩

/-- Counterexample to C5 as stated: the column "Vehicle Year" of the table
`[[1800]]` has 0% missing values, yet `run_audit` marks it "Critical" (not
"Valid") and deducts 5 points (score 95): the domain accuracy check
overrides the completeness-based status rule. -/
theorem audit_status_rule_cex :
    (run_audit 20251012 vyTbl).details.map (fun s => (s.status, s.missingPctStr)) =
      [("Critical", "0.00%")] ∧
    (run_audit 20251012 vyTbl).score = 95 ∧
    missingCount (colCellsByName vyTbl "Vehicle Year") = 0 := by
  with_unfolding_all decide

/-- C5 (amended): for every non-empty table, every column other than
"Vehicle Year" obeys the completeness rule: its details-table row carries
status Critical when it is a key field with more than 1% missing, Warning
when it has any missing values otherwise, and Valid with no missing; its
score deduction is 5 in the Critical case, 1 when more than 5% is missing
(non-key), and 0 otherwise; and `run_audit`'s score is 100 minus the
consistency, timeliness and per-column deductions, clamped to [0, 100].
(A "Vehicle Year" column with out-of-range values is instead forced to
Critical with an extra 5-point deduction, as the counterexample shows.) -/
theorem audit_column_status_rule (now : ℤ) (df : Table) (k : ℕ) (name : String)
    (hk : k < df.header.length)
    (hn : 0 < df.rows.length)
    (hname : df.header.get ⟨k, hk⟩ = name)
    (hvy : name ≠ "Vehicle Year") :
    ((run_audit now df).details[k]? =
      some ⟨name, dtypeOf (colCellsByName df name),
        fmtFixed 2 (missingPct df.rows.length (colCellsByName df name)) ++ "%",
        uniqueCount (colCellsByName df name),
        (if name ∈ keyFields ∧ 1 < missingPct df.rows.length (colCellsByName df name) then "Critical"
         else if 0 < missingPct df.rows.length (colCellsByName df name) then "Warning"
         else "Valid")⟩) ∧
    ((colAudit df.rows.length now name (colCellsByName df name)).1 =
      (if name ∈ keyFields ∧ 1 < missingPct df.rows.length (colCellsByName df name) then 5
       else if 5 < missingPct df.rows.length (colCellsByName df name) then 1
       else 0)) ∧
    ((run_audit now df).score =
      max 0 (min 100 (100 - (consistencyCheck df).1 - (timelinessCheck now df).1 -
        (df.header.map (fun c => (colAudit df.rows.length now c (colCellsByName df c)).1)).sum))) ∧
    ((colAudit df.rows.length now name (colCellsByName df name)).2.2 =
      (if name ∈ keyFields ∧ 1 < missingPct df.rows.length (colCellsByName df name) then
        ["🔴 Critical Field '" ++ name ++ "' has "
          ++ fmtFixed 1 (missingPct df.rows.length (colCellsByName df name))
          ++ "% missing values (High Risk)."]
       else [])) ∧
    ((name ∈ keyFields ∧ 1 < missingPct df.rows.length (colCellsByName df name)) →
      ("🔴 Critical Field '" ++ name ++ "' has "
        ++ fmtFixed 1 (missingPct df.rows.length (colCellsByName df name))
        ++ "% missing values (High Risk).") ∈ (run_audit now df).summary) := by
  refine ⟨?_, colAudit_fst_of_ne_vy _ _ _ _ hvy, ?_,
    colAudit_findings_of_ne_vy _ _ _ _ hvy, ?_⟩
  · unfold run_audit
    rw [if_neg (by omega)]
    dsimp only
    rw [List.getElem?_map, List.getElem?_map, List.getElem?_eq_getElem hk]
    have : df.header.get ⟨k, hk⟩ = df.header[k] := rfl
    rw [← this, hname]
    simp only [Option.map_some']
    rw [colAudit_snd_of_ne_vy _ _ _ _ hvy]
  · unfold run_audit
    rw [if_neg (by omega)]
    dsimp only
    rw [List.map_map]
    rfl
  · intro hcrit
    have hmemname : name ∈ df.header := by
      rw [← hname]
      exact List.get_mem df.header k hk
    rw [run_audit_summary_eq now df (by omega)]
    apply List.mem_append.mpr
    right
    apply List.mem_flatten.mpr
    refine ⟨(colAudit df.rows.length now name (colCellsByName df name)).2.2, ?_, ?_⟩
    · exact List.mem_map.mpr ⟨name, hmemname, rfl⟩
    · rw [colAudit_findings_of_ne_vy _ _ _ _ hvy, if_pos hcrit]
      exact List.mem_singleton.mpr rfl

/-- Key-field column "Latitude" with one of two values missing (50% > 1%). -/
def latTbl : Table := ⟨["Latitude"], [[none], [some (Value.num 1)]]⟩

/-- Witness for C5 (amended) on the key-field column "Latitude" with 50%
missing: status Critical, deduction 5, and the clamped score equation. -/
theorem audit_column_status_rule_witness :
    ((run_audit 20251012 latTbl).details[0]? =
      some ⟨"Latitude", dtypeOf (colCellsByName latTbl "Latitude"),
        fmtFixed 2 (missingPct latTbl.rows.length (colCellsByName latTbl "Latitude")) ++ "%",
        uniqueCount (colCellsByName latTbl "Latitude"),
        (if "Latitude" ∈ keyFields ∧ 1 < missingPct latTbl.rows.length (colCellsByName latTbl "Latitude") then "Critical"
         else if 0 < missingPct latTbl.rows.length (colCellsByName latTbl "Latitude") then "Warning"
         else "Valid")⟩) ∧
    ((colAudit latTbl.rows.length 20251012 "Latitude" (colCellsByName latTbl "Latitude")).1 =
      (if "Latitude" ∈ keyFields ∧ 1 < missingPct latTbl.rows.length (colCellsByName latTbl "Latitude") then 5
       else if 5 < missingPct latTbl.rows.length (colCellsByName latTbl "Latitude") then 1
       else 0)) ∧
    ((run_audit 20251012 latTbl).score =
      max 0 (min 100 (100 - (consistencyCheck latTbl).1 - (timelinessCheck 20251012 latTbl).1 -
        (latTbl.header.map (fun c => (colAudit latTbl.rows.length 20251012 c (colCellsByName latTbl c)).1)).sum))) ∧
    ((colAudit latTbl.rows.length 20251012 "Latitude" (colCellsByName latTbl "Latitude")).2.2 =
      (if "Latitude" ∈ keyFields ∧ 1 < missingPct latTbl.rows.length (colCellsByName latTbl "Latitude") then
        ["🔴 Critical Field '" ++ "Latitude" ++ "' has "
          ++ fmtFixed 1 (missingPct latTbl.rows.length (colCellsByName latTbl "Latitude"))
          ++ "% missing values (High Risk)."]
       else [])) ∧
    (("Latitude" ∈ keyFields ∧ 1 < missingPct latTbl.rows.length (colCellsByName latTbl "Latitude")) →
      ("🔴 Critical Field '" ++ "Latitude" ++ "' has "
        ++ fmtFixed 1 (missingPct latTbl.rows.length (colCellsByName latTbl "Latitude"))
        ++ "% missing values (High Risk).") ∈ (run_audit 20251012 latTbl).summary) :=
  audit_column_status_rule 20251012 latTbl 0 "Latitude" (by decide) (by decide) rfl (by decide)

lemma foldl_argmax_spec (l : List Value) :
    ∀ (t : List Value) (acc : Value × ℕ),
      (∀ w ∈ t, w ∈ l) → acc.1 ∈ l → acc.2 = l.count acc.1 →
      (t.foldl (fun a w => if a.2 < l.count w then (w, l.count w) else a) acc).1 ∈ l ∧
      (t.foldl (fun a w => if a.2 < l.count w then (w, l.count w) else a) acc).2 =
        l.count (t.foldl (fun a w => if a.2 < l.count w then (w, l.count w) else a) acc).1 ∧
      acc.2 ≤ (t.foldl (fun a w => if a.2 < l.count w then (w, l.count w) else a) acc).2 ∧
      (∀ w ∈ t, l.count w ≤
        (t.foldl (fun a w => if a.2 < l.count w then (w, l.count w) else a) acc).2) := by
  intro t
  induction t with
  | nil =>
    intro acc _ h1 h2
    exact ⟨h1, h2, le_refl _, by simp⟩
  | cons w t ih =>
    intro acc ht h1 h2
    simp only [List.foldl_cons]
    have ha1 : (if acc.2 < l.count w then (w, l.count w) else acc).1 ∈ l := by
      split_ifs
      · exact ht w (List.mem_cons_self w t)
      · exact h1
    have ha2 : (if acc.2 < l.count w then (w, l.count w) else acc).2 =
        l.count (if acc.2 < l.count w then (w, l.count w) else acc).1 := by
      split_ifs
      · rfl
      · exact h2
    have hmono : acc.2 ≤ (if acc.2 < l.count w then (w, l.count w) else acc).2 := by
      split_ifs with hlt
      · exact le_of_lt hlt
      · exact le_refl _
    have ht' : ∀ u ∈ t, u ∈ l := fun u hu => ht u (List.mem_cons_of_mem _ hu)
    obtain ⟨r1, r2, r3, r4⟩ := ih _ ht' ha1 ha2
    refine ⟨r1, r2, le_trans hmono r3, ?_⟩
    intro u hu
    rcases List.mem_cons.mp hu with rfl | hu'
    · have hwa : l.count u ≤ (if acc.2 < l.count u then (u, l.count u) else acc).2 := by
        split_ifs with hlt
        · exact le_refl _
        · exact le_of_not_lt hlt
      exact le_trans hwa r3
    · exact r4 u hu'

lemma topValue_spec (cells : List Cell) (v : Value) (k : ℕ)
    (h : topValue cells = some (v, k)) :
    v ∈ presentVals cells ∧ (presentVals cells).count v = k ∧
    ∀ w ∈ presentVals cells, (presentVals cells).count w ≤ k := by
  rcases hp : presentVals cells with _ | ⟨v0, t0⟩
  · rw [topValue, hp] at h
    exact absurd h (by simp)
  · rw [topValue, hp] at h
    dsimp only at h
    obtain ⟨hv, hk⟩ : ((v0 :: t0).foldl
        (fun a w => if a.2 < (v0 :: t0).count w then (w, (v0 :: t0).count w) else a)
        (v0, (v0 :: t0).count v0)).1 = v ∧
        ((v0 :: t0).foldl
        (fun a w => if a.2 < (v0 :: t0).count w then (w, (v0 :: t0).count w) else a)
        (v0, (v0 :: t0).count v0)).2 = k := by
      have := Option.some.inj h
      exact ⟨congrArg Prod.fst this, congrArg Prod.snd this⟩
    obtain ⟨r1, r2, _, r4⟩ := foldl_argmax_spec (v0 :: t0) (v0 :: t0)
      (v0, (v0 :: t0).count v0) (fun w hw => hw) (List.mem_cons_self v0 t0) rfl
    rw [hv] at r1
    rw [hv, hk] at r2
    rw [hk] at r4
    exact ⟨r1, r2.symm, r4⟩

/-- C10: for a non-empty table having a column of the priority list, the
first insight block is the dominant-trend template naming the
most-frequent value of that column (`v`, of maximal count `k` among the
column's non-missing values) and stating its share `k / rows * 100` of
total rows. -/
theorem insights_first_block_dominant (df : Table) (c : String) (v : Value) (k : ℕ)
    (hrows : 0 < df.rows.length) (hcols : 0 < df.header.length)
    (htc : targetColOf df = some c)
    (htop : topValue (colCellsByName df c) = some (v, k)) :
    (generate_insights df).head? =
      some (insightBlock1 c v k (((k : ℚ) / (df.rows.length : ℚ)) * 100)) ∧
    v ∈ presentVals (colCellsByName df c) ∧
    (presentVals (colCellsByName df c)).count v = k ∧
    (∀ w ∈ presentVals (colCellsByName df c), (presentVals (colCellsByName df c)).count w ≤ k) := by
  obtain ⟨h1, h2, h3⟩ := topValue_spec _ _ _ htop
  refine ⟨?_, h1, h2, h3⟩
  unfold generate_insights
  rw [if_neg (by rintro (h | h) <;> omega)]
  dsimp only
  rw [htc]
  dsimp only
  rw [htop]
  rfl

/-- Categorical column `["A", "A", "B"]` of the end-to-end scenario. -/
def ctTbl : Table :=
  ⟨["Collision Type"], [[some (Value.str "A")], [some (Value.str "A")], [some (Value.str "B")]]⟩

set_option maxRecDepth 10000 in
/-- Witness for C10 on the column `["A", "A", "B"]`: the first block names
"A" (count 2 of 3 rows) and its rendered text contains "A" and "66.7". -/
theorem insights_first_block_dominant_witness :
    ((generate_insights ctTbl).head? =
      some (insightBlock1 "Collision Type" (Value.str "A") 2 (((2 : ℚ) / (ctTbl.rows.length : ℚ)) * 100)) ∧
     Value.str "A" ∈ presentVals (colCellsByName ctTbl "Collision Type") ∧
     (presentVals (colCellsByName ctTbl "Collision Type")).count (Value.str "A") = 2 ∧
     (∀ w ∈ presentVals (colCellsByName ctTbl "Collision Type"),
       (presentVals (colCellsByName ctTbl "Collision Type")).count w ≤ 2)) ∧
    containsSub (insightBlock1 "Collision Type" (Value.str "A") 2 (((2 : ℚ) / (ctTbl.rows.length : ℚ)) * 100)) "'A'" = true ∧
    containsSub (insightBlock1 "Collision Type" (Value.str "A") 2 (((2 : ℚ) / (ctTbl.rows.length : ℚ)) * 100)) "66.7" = true :=
  ⟨insights_first_block_dominant ctTbl "Collision Type" (Value.str "A") 2
      (by decide) (by decide) (by decide) (by decide),
    by with_unfolding_all decide, by with_unfolding_all decide⟩

lemma run_audit_score_eq (now : ℤ) (df : Table) (hn : df.rows.length ≠ 0) :
    (run_audit now df).score =
      max 0 (min 100 (100 - (consistencyCheck df).1 - (timelinessCheck now df).1 -
        (df.header.map (fun c => (colAudit df.rows.length now c (colCellsByName df c)).1)).sum)) := by
  unfold run_audit
  rw [if_neg hn]
  dsimp only
  rw [List.map_map]
  rfl

lemma colAudit_fst_eq (n : ℕ) (now : ℤ) (name : String) (cells : List Cell) :
    (colAudit n now name cells).1 =
      (if name ∈ keyFields ∧ 1 < missingPct n cells then (5 : ℤ)
       else if 5 < missingPct n cells then 1
       else 0) +
      (if name = "Vehicle Year" ∧
          0 < ((cells.filterMap toNumericCell).filter
            (fun q => decide (q < 1900) || decide (((yearOf now + 1 : ℤ) : ℚ) < q))).length
       then (5 : ℤ) else 0) := by
  unfold colAudit
  dsimp only
  by_cases hVY : name = "Vehicle Year" <;>
    by_cases hinv : 0 < ((cells.filterMap toNumericCell).filter
      (fun q => decide (q < 1900) || decide (((yearOf now + 1 : ℤ) : ℚ) < q))).length <;>
    by_cases hk1 : name ∈ keyFields ∧ 1 < missingPct n cells <;>
    by_cases h5 : 5 < missingPct n cells <;>
    by_cases h0 : 0 < missingPct n cells <;>
    simp only [hVY, hinv, hk1, h5, h0, if_true, if_false, and_true, and_false,
      true_and, false_and, if_pos, not_true, not_false_iff] <;>
    first
      | rfl
      | (exfalso; linarith [hk1.2])
      | (exfalso; linarith)

lemma missingPct_mono_append_none (n : ℕ) (cells : List Cell)
    (hlen : cells.length = n) (hn : 0 < n) :
    missingPct n cells ≤ missingPct (n + 1) (cells ++ [none]) := by
  have hmiss : missingCount (cells ++ [none]) = missingCount cells + 1 := by
    unfold missingCount
    rw [List.countP_append]
    rfl
  have hmle : missingCount cells ≤ n := by
    unfold missingCount
    rw [← hlen]
    exact List.countP_le_length _
  unfold missingPct
  rw [hmiss]
  have hn' : (0 : ℚ) < (n : ℚ) := by exact_mod_cast hn
  have hn1 : (0 : ℚ) < ((n : ℕ) : ℚ) + 1 := by linarith
  have hc : ((n + 1 : ℕ) : ℚ) = (n : ℚ) + 1 := by push_cast; ring
  rw [hc]
  rw [div_mul_eq_mul_div, div_mul_eq_mul_div, div_le_div_iff₀ hn' hn1]
  have hm' : ((missingCount cells : ℚ)) ≤ (n : ℚ) := by exact_mod_cast hmle
  have hc2 : ((missingCount cells + 1 : ℕ) : ℚ) = (missingCount cells : ℚ) + 1 := by push_cast; ring
  rw [hc2]
  nlinarith [hm']

lemma colAudit_fst_append_none (n : ℕ) (now : ℤ) (name : String) (cells : List Cell)
    (hlen : cells.length = n) (hn : 0 < n) :
    (colAudit n now name cells).1 ≤ (colAudit (n + 1) now name (cells ++ [none])).1 := by
  rw [colAudit_fst_eq, colAudit_fst_eq]
  have hpct := missingPct_mono_append_none n cells hlen hn
  have hny : (cells ++ [none]).filterMap toNumericCell = cells.filterMap toNumericCell := by
    rw [List.filterMap_append]
    simp [toNumericCell]
  rw [hny]
  apply add_le_add
  · by_cases hk1 : name ∈ keyFields ∧ 1 < missingPct n cells
    · rw [if_pos hk1, if_pos ⟨hk1.1, by linarith [hk1.2]⟩]
    · by_cases h5 : 5 < missingPct n cells
      · rw [if_neg hk1, if_pos h5]
        split_ifs <;> first | omega | linarith
      · rw [if_neg hk1, if_neg h5]
        split_ifs <;> omega
  · exact le_refl _

lemma colAudit_fst_append_present_nomiss (n : ℕ) (now : ℤ) (name : String)
    (cells : List Cell) (c0 : Cell)
    (hvy : name ≠ "Vehicle Year")
    (hm0 : missingCount cells = 0)
    (hc0 : c0.isNone = false) :
    (colAudit n now name cells).1 = (colAudit (n + 1) now name (cells ++ [c0])).1 := by
  rw [colAudit_fst_eq, colAudit_fst_eq]
  have hm0' : missingCount (cells ++ [c0]) = 0 := by
    unfold missingCount at hm0 ⊢
    rw [List.countP_append, hm0]
    simp [hc0]
  have hp1 : missingPct n cells = 0 := by
    unfold missingPct
    rw [hm0]
    norm_num
  have hp2 : missingPct (n + 1) (cells ++ [c0]) = 0 := by
    unfold missingPct
    rw [hm0']
    norm_num
  rw [hp1, hp2]
  have h10 : ¬((1 : ℚ) < 0) := by norm_num
  have h50 : ¬((5 : ℚ) < 0) := by norm_num
  rw [if_neg (fun h => h10 h.2), if_neg h50,
    if_neg (fun h => hvy h.1), if_neg (fun h => hvy h.1)]

lemma colAudit_fst_le_vy_invalid (n : ℕ) (now : ℤ) (cells cells' : List Cell)
    (hm : missingCount cells' = missingCount cells)
    (hinv : ∃ q ∈ cells'.filterMap toNumericCell,
      (q < 1900 ∨ ((yearOf now + 1 : ℤ) : ℚ) < q)) :
    (colAudit n now "Vehicle Year" cells).1 ≤ (colAudit n now "Vehicle Year" cells').1 := by
  rw [colAudit_fst_eq, colAudit_fst_eq]
  have hpct : missingPct n cells' = missingPct n cells := by
    unfold missingPct
    rw [hm]
  rw [hpct]
  apply add_le_add (le_refl _)
  have hlen : 0 < ((cells'.filterMap toNumericCell).filter
      (fun q => decide (q < 1900) || decide (((yearOf now + 1 : ℤ) : ℚ) < q))).length := by
    obtain ⟨q, hq, hcond⟩ := hinv
    apply List.length_pos.mpr
    apply List.ne_nil_of_mem (a := q)
    apply List.mem_filter.mpr
    refine ⟨hq, ?_⟩
    rcases hcond with h | h
    · simp [h]
    · simp only [Bool.or_eq_true, decide_eq_true_eq]
      exact Or.inr h
  conv_rhs => rw [if_pos ⟨rfl, hlen⟩]
  split_ifs <;> omega

lemma colCells_length (df : Table) (i : ℕ) : (colCells df i).length = df.rows.length := by
  simp [colCells]

lemma colCells_withExtraRow (df : Table) (r : List Cell) (i : ℕ) :
    colCells (withExtraRow df r) i = colCells df i ++ [r.getD i none] := by
  unfold colCells withExtraRow
  dsimp only
  rw [List.map_append]
  rfl

lemma colIndex_withExtraRow (df : Table) (r : List Cell) (c : String) :
    colIndex (withExtraRow df r) c = colIndex df c := rfl

lemma colIndex_setCellAt (df : Table) (j i : ℕ) (v : Cell) (c : String) :
    colIndex (setCellAt df j i v) c = colIndex df c := rfl

lemma colCells_setCellAt (df : Table) (j i i2 : ℕ) (v : Cell) :
    colCells (setCellAt df j i v) i2 =
      (colCells df i2).set j (((df.rows.getD j []).set i v).getD i2 none) := by
  unfold colCells setCellAt
  dsimp only
  rw [List.map_set]

lemma colCells_setCellAt_ne (df : Table) (j i i2 : ℕ) (v : Cell)
    (hj : j < df.rows.length) (hne : i ≠ i2) :
    colCells (setCellAt df j i v) i2 = colCells df i2 := by
  rw [colCells_setCellAt, getD_set_ne _ _ _ _ _ hne]
  have hg : (df.rows.getD j []).getD i2 none = (colCells df i2).getD j none :=
    (getD_map_of_lt (fun r => r.getD i2 none) df.rows j [] none hj).symm
  rw [hg, set_getD_self_eq]

lemma colCells_setCellAt_self (df : Table) (j i : ℕ) (v : Cell)
    (hi : i < (df.rows.getD j []).length) :
    colCells (setCellAt df j i v) i = (colCells df i).set j v := by
  rw [colCells_setCellAt, getD_set_self, if_pos hi]

lemma colCellsByName_setCellAt_of_idx_ne (df : Table) (j i : ℕ) (v : Cell) (c0 : String)
    (hj : j < df.rows.length)
    (h : ∀ i2, colIndex df c0 = some i2 → i ≠ i2) :
    colCellsByName (setCellAt df j i v) c0 = colCellsByName df c0 := by
  unfold colCellsByName
  rw [colIndex_setCellAt]
  cases hc : colIndex df c0 with
  | none => rfl
  | some i2 => exact colCells_setCellAt_ne df j i i2 v hj (h i2 hc)

lemma consistencyCheck_congr (df df' : Table)
    (hh : df'.header = df.header)
    (hr : df'.rows.length = df.rows.length)
    (hc : colCellsByName df' primaryKey = colCellsByName df primaryKey) :
    consistencyCheck df' = consistencyCheck df := by
  unfold consistencyCheck
  rw [hh, hr, hc]

lemma timelinessCheck_congr (now : ℤ) (df df' : Table)
    (hh : df'.header = df.header)
    (hc : colCellsByName df' "Crash Date/Time" = colCellsByName df "Crash Date/Time") :
    timelinessCheck now df' = timelinessCheck now df := by
  unfold timelinessCheck
  rw [hh, hc]

lemma colCells_getD (df : Table) (i j : ℕ) (hj : j < df.rows.length) :
    (colCells df i).getD j none = (df.rows.getD j []).getD i none := by
  show (df.rows.map (fun r => r.getD i none)).getD j none = _
  exact getD_map_of_lt _ _ _ _ _ hj

lemma audit_year_replace_le (now : ℤ) (df : Table) (i j : ℕ) (q q' : ℚ)
    (hvyi : colIndex df "Vehicle Year" = some i)
    (hold : (df.rows.getD j []).getD i none = some (Value.num q))
    (hq' : q' < 1900 ∨ ((yearOf now + 1 : ℤ) : ℚ) < q') :
    (run_audit now (setCellAt df j i (some (Value.num q')))).score ≤
      (run_audit now df).score := by
  have hj : j < df.rows.length := by
    apply lt_length_of_getD_ne df.rows j []
    intro he
    rw [he] at hold
    simp at hold
  have hi : i < (df.rows.getD j []).length := by
    apply lt_length_of_getD_ne _ _ _
    rw [hold]
    simp
  have hn : df.rows.length ≠ 0 := by omega
  have hn' : (setCellAt df j i (some (Value.num q'))).rows.length = df.rows.length := by
    simp [setCellAt]
  rw [run_audit_score_eq now df hn, run_audit_score_eq now _ (by rw [hn']; exact hn)]
  apply max_le_max le_rfl
  apply min_le_min le_rfl
  have hVYpk : ¬(("Vehicle Year" : String) = primaryKey) := by decide
  have hVYcdt : ¬(("Vehicle Year" : String) = "Crash Date/Time") := by decide
  have hcon : consistencyCheck (setCellAt df j i (some (Value.num q'))) = consistencyCheck df := by
    apply consistencyCheck_congr df (setCellAt df j i (some (Value.num q'))) rfl hn'
    exact colCellsByName_setCellAt_of_idx_ne df j i _ primaryKey hj
      (fun i2 h2 => idxOfName_ne_of_names_ne _ _ _ _ _ hvyi h2 hVYpk)
  have htim : timelinessCheck now (setCellAt df j i (some (Value.num q'))) =
      timelinessCheck now df := by
    apply timelinessCheck_congr now df (setCellAt df j i (some (Value.num q'))) rfl
    exact colCellsByName_setCellAt_of_idx_ne df j i _ "Crash Date/Time" hj
      (fun i2 h2 => idxOfName_ne_of_names_ne _ _ _ _ _ hvyi h2 hVYcdt)
  have hsum : (df.header.map
        (fun c => (colAudit df.rows.length now c (colCellsByName df c)).1)).sum ≤
      ((setCellAt df j i (some (Value.num q'))).header.map
        (fun c => (colAudit (setCellAt df j i (some (Value.num q'))).rows.length now c
          (colCellsByName (setCellAt df j i (some (Value.num q'))) c)).1)).sum := by
    have hhd : (setCellAt df j i (some (Value.num q'))).header = df.header := rfl
    rw [hhd, hn']
    apply List.sum_le_sum
    intro c hc
    by_cases hcv : c = "Vehicle Year"
    · subst hcv
      have h1 : colCellsByName (setCellAt df j i (some (Value.num q'))) "Vehicle Year" =
          (colCells df i).set j (some (Value.num q')) := by
        unfold colCellsByName
        rw [colIndex_setCellAt, hvyi]
        exact colCells_setCellAt_self df j i _ hi
      have h0 : colCellsByName df "Vehicle Year" = colCells df i := by
        unfold colCellsByName
        rw [hvyi]
      rw [h0, h1]
      apply colAudit_fst_le_vy_invalid
      · unfold missingCount
        apply countP_set_same _ _ j _ none
        · rw [colCells_length]
          exact hj
        · rw [colCells_getD df i j hj, hold]
          rfl
      · refine ⟨q', ?_, hq'⟩
        apply List.mem_filterMap.mpr
        refine ⟨some (Value.num q'), ?_, rfl⟩
        apply mem_set_self
        rw [colCells_length]
        exact hj
    · have heq : colCellsByName (setCellAt df j i (some (Value.num q'))) c = colCellsByName df c :=
        colCellsByName_setCellAt_of_idx_ne df j i _ c hj
          (fun i2 h2 => (idxOfName_ne_of_names_ne _ _ _ _ _ h2 hvyi (fun he => hcv he)).symm)
      rw [heq]
  rw [hcon, htim]
  linarith [hsum]

lemma consistencyCheck_fst_withExtraRow_dup (df : Table) (r : List Cell) (ip : ℕ)
    (hip : colIndex df primaryKey = some ip)
    (hmem : r.getD ip none ∈ colCells df ip) :
    (consistencyCheck df).1 ≤ (consistencyCheck (withExtraRow df r)).1 := by
  have hpkmem : primaryKey ∈ df.header := idxOfName_mem _ _ _ hip
  have hcells' : colCellsByName (withExtraRow df r) primaryKey =
      colCells df ip ++ [r.getD ip none] := by
    unfold colCellsByName
    rw [colIndex_withExtraRow, hip]
    exact colCells_withExtraRow df r ip
  have hn' : (withExtraRow df r).rows.length = df.rows.length + 1 := by
    simp [withExtraRow]
  have hdup' : 0 < (withExtraRow df r).rows.length -
      (colCellsByName (withExtraRow df r) primaryKey).dedup.length := by
    rw [hn', hcells', dedup_length_append_mem _ _ hmem]
    have hle : (colCells df ip).dedup.length ≤ (colCells df ip).length :=
      (List.dedup_sublist _).length_le
    rw [colCells_length] at hle
    omega
  have h20 : (consistencyCheck (withExtraRow df r)).1 = 20 := by
    unfold consistencyCheck
    rw [if_pos (show primaryKey ∈ (withExtraRow df r).header from hpkmem)]
    dsimp only
    rw [if_pos hdup']
  rw [h20]
  unfold consistencyCheck
  dsimp only
  split_ifs <;> omega

lemma timelinessCheck_withExtraRow_none (now : ℤ) (df : Table) (r : List Cell)
    (h : ∀ i2, colIndex df "Crash Date/Time" = some i2 → r.getD i2 none = none) :
    timelinessCheck now (withExtraRow df r) = timelinessCheck now df := by
  by_cases hm : "Crash Date/Time" ∈ df.header
  · obtain ⟨i2, hi2⟩ := mem_idxOfName _ _ hm
    have hi2' : colIndex df "Crash Date/Time" = some i2 := hi2
    have hcol : colCellsByName (withExtraRow df r) "Crash Date/Time" =
        colCellsByName df "Crash Date/Time" ++ [none] := by
      unfold colCellsByName
      rw [colIndex_withExtraRow, hi2']
      dsimp only
      rw [colCells_withExtraRow, h i2 hi2']
    unfold timelinessCheck
    rw [if_pos (show ("Crash Date/Time" : String) ∈ (withExtraRow df r).header from hm),
      if_pos hm]
    dsimp only
    rw [hcol]
    have hdt : isDatetimeCol (colCellsByName df "Crash Date/Time" ++ [none]) =
        isDatetimeCol (colCellsByName df "Crash Date/Time") := by
      unfold isDatetimeCol
      rw [List.all_append]
      simp
    rw [hdt]
    by_cases hb : isDatetimeCol (colCellsByName df "Crash Date/Time") = true
    · rw [if_pos hb, if_pos hb, List.filterMap_append]
      simp [cellDate]
    · rw [if_neg hb, if_neg hb, List.map_append, List.filterMap_append]
      simp [parseDateCell, cellDate]
  · unfold timelinessCheck
    rw [if_neg (show ¬("Crash Date/Time" : String) ∈ (withExtraRow df r).header from hm),
      if_neg hm]

lemma audit_dup_append_le (now : ℤ) (df : Table) (ip : ℕ) (r : List Cell)
    (hip : colIndex df primaryKey = some ip)
    (hnomiss : missingCount (colCells df ip) = 0)
    (hmem : r.getD ip none ∈ colCells df ip)
    (habs : ∀ i2, i2 ≠ ip → r.getD i2 none = none) :
    (run_audit now (withExtraRow df r)).score ≤ (run_audit now df).score := by
  have hn : 0 < df.rows.length := by
    have hpos := List.length_pos.mpr (List.ne_nil_of_mem hmem)
    rw [colCells_length] at hpos
    exact hpos
  have hn' : (withExtraRow df r).rows.length = df.rows.length + 1 := by
    simp [withExtraRow]
  rw [run_audit_score_eq now df (by omega), run_audit_score_eq now _ (by rw [hn']; omega)]
  apply max_le_max le_rfl
  apply min_le_min le_rfl
  have hcon := consistencyCheck_fst_withExtraRow_dup df r ip hip hmem
  have hCDT : ∀ i2, colIndex df "Crash Date/Time" = some i2 → r.getD i2 none = none := by
    intro i2 h2
    apply habs
    exact idxOfName_ne_of_names_ne _ _ _ _ _ h2 hip (by decide)
  have htim := timelinessCheck_withExtraRow_none now df r hCDT
  have hsum : (df.header.map
        (fun c => (colAudit df.rows.length now c (colCellsByName df c)).1)).sum ≤
      ((withExtraRow df r).header.map
        (fun c => (colAudit (withExtraRow df r).rows.length now c
          (colCellsByName (withExtraRow df r) c)).1)).sum := by
    have hhd : (withExtraRow df r).header = df.header := rfl
    rw [hhd, hn']
    apply List.sum_le_sum
    intro c hc
    obtain ⟨i2, hi2⟩ := mem_idxOfName _ _ hc
    have hi2' : colIndex df c = some i2 := hi2
    have hcol' : colCellsByName (withExtraRow df r) c = colCells df i2 ++ [r.getD i2 none] := by
      unfold colCellsByName
      rw [colIndex_withExtraRow, hi2']
      exact colCells_withExtraRow df r i2
    have hcol0 : colCellsByName df c = colCells df i2 := by
      unfold colCellsByName
      rw [hi2']
    by_cases hcp : c = primaryKey
    · subst hcp
      have hipeq : i2 = ip := Option.some.inj (hi2'.symm.trans hip)
      subst hipeq
      have hc0 : (r.getD i2 none).isNone = false := by
        have hall := List.countP_eq_zero.mp hnomiss _ hmem
        simp only [Bool.not_eq_true] at hall
        exact hall
      rw [hcol0, hcol']
      exact le_of_eq (colAudit_fst_append_present_nomiss df.rows.length now primaryKey
        (colCells df i2) (r.getD i2 none) (by decide) hnomiss hc0)
    · have hne : i2 ≠ ip := idxOfName_ne_of_names_ne _ _ _ _ _ hi2' hip hcp
      rw [hcol0, hcol', habs i2 hne]
      exact colAudit_fst_append_none df.rows.length now c (colCells df i2)
        (colCells_length df i2) hn
  rw [htim]
  linarith [hsum, hcon]

/-- Base table of the monotonicity counterexample: 99 rows, identifier
column with one duplicated pair, key field "Latitude" missing in exactly
one row (1.01% > 1%, costing 5 points). -/
def cexBase : Table :=
  ⟨["Report Number", "Latitude"],
   (List.range 99).map (fun j =>
     [some (Value.num (if j ≤ 1 then 0 else (j : ℚ))),
      if j = 0 then none else some (Value.num 1)])⟩

/-- The appended defect row: duplicate identifier, Latitude present. -/
def cexDupRow : List Cell := [some (Value.num 0), some (Value.num 1)]

set_option maxRecDepth 40000 in
/-- Counterexample to C3 as stated: appending a duplicate-identifier row to
`cexBase` RAISES the audit score from 75 to 80, because the extra row
dilutes the Latitude column's missing percentage from 1.01% (Critical,
-5) to exactly 1% (Warning, no deduction) while the duplicate penalty
(-20) was already being paid. -/
theorem audit_dup_row_raises_score_cex :
    (run_audit 20251012 cexBase).score < (run_audit 20251012 (withExtraRow cexBase cexDupRow)).score ∧
    (run_audit 20251012 cexBase).score = 75 ∧
    (run_audit 20251012 (withExtraRow cexBase cexDupRow)).score = 80 ∧
    cexDupRow.getD 0 none ∈ colCells cexBase 0 := by
  with_unfolding_all decide

/-- C3 (amended): two defect introductions that never raise the audit
score.  (a) Replacing a present numeric value of the "Vehicle Year" column
by an out-of-range year; (b) appending a row that duplicates an existing
identifier cell and is absent in every other position, to a table whose
identifier column has no missing values.  (Without these restrictions the
claim is false: an appended duplicate row with present cells dilutes
missing percentages and can raise the score, as the counterexample
shows.) -/
theorem audit_defect_score_monotone (now : ℤ) (df : Table) :
    (∀ (i j : ℕ) (q q' : ℚ),
      colIndex df "Vehicle Year" = some i →
      (df.rows.getD j []).getD i none = some (Value.num q) →
      (q' < 1900 ∨ ((yearOf now + 1 : ℤ) : ℚ) < q') →
      (run_audit now (setCellAt df j i (some (Value.num q')))).score ≤
        (run_audit now df).score) ∧
    (∀ (ip : ℕ) (r : List Cell),
      colIndex df primaryKey = some ip →
      missingCount (colCells df ip) = 0 →
      r.getD ip none ∈ colCells df ip →
      (∀ i2, i2 ≠ ip → r.getD i2 none = none) →
      (run_audit now (withExtraRow df r)).score ≤ (run_audit now df).score) :=
  ⟨fun i j q q' h1 h2 h3 => audit_year_replace_le now df i j q q' h1 h2 h3,
   fun ip r h1 h2 h3 h4 => audit_dup_append_le now df ip r h1 h2 h3 h4⟩

/-- Single-row table with an in-range vehicle year. -/
def vyTbl2000 : Table := ⟨["Vehicle Year"], [[some (Value.num 2000)]]⟩

/-- Single-row table with one identifier. -/
def rnTbl : Table := ⟨["Report Number"], [[some (Value.num 1)]]⟩

set_option maxRecDepth 10000 in
/-- Witness for C3 (amended): replacing the in-range year 2000 by 1800
lowers the score (95 ≤ 100), and appending an exact duplicate of the only
identifier row lowers it too (80 ≤ 100). -/
theorem audit_defect_score_monotone_witness :
    ((run_audit 20251012 (setCellAt vyTbl2000 0 0 (some (Value.num 1800)))).score ≤
      (run_audit 20251012 vyTbl2000).score) ∧
    ((run_audit 20251012 (withExtraRow rnTbl [some (Value.num 1)])).score ≤
      (run_audit 20251012 rnTbl).score) :=
  ⟨(audit_defect_score_monotone 20251012 vyTbl2000).1 0 0 2000 1800
      (by decide) (by with_unfolding_all decide) (Or.inl (by norm_num)),
   (audit_defect_score_monotone 20251012 rnTbl).2 0 [some (Value.num 1)]
      (by decide) (by with_unfolding_all decide) (by with_unfolding_all decide)
      (fun i2 h => by
        cases i2 with
        | zero => exact absurd rfl h
        | succ k => rfl)⟩
